import Mathlib

/-!
# Verification of the ai-writer orchestration core

Shallow embedding of the article-generation pipeline:

* `src/types/agent.ts` — the data model (outline, plans, contents, feedback,
  proposed edits, usage records);
* `src/utils/applyEdits.ts` — `applyEditsAndGenerateMarkdown`, the pure
  renderer, including the exact ECMAScript `String.prototype.replace`
  semantics it relies on (first-occurrence search and `$`-substitution in
  the replacement string);
* `src/utils/calculateUsage.ts` — the cost aggregator over the usage ledger;
* `writeArticle` — the pipeline orchestrator: outline call, sequential
  strategy fold, per-section bounded revision loop, fan-out/fan-in join,
  final review, rendering and cost totalling.

External generative agents are modelled as oracles: functions from the exact
input record the code passes to `Except`-wrapped outputs (a failing call is
`Except.error`, mirroring a rejected promise).  Monetary amounts are modelled
as exact rationals (`ℚ`); the claims under study are about the structure of
the accounting, not floating-point rounding.  Console logging and the `tmp/`
diagnostic file dumps are side channels and are not modelled, except that the
usage ledger (which the code both returns through `calculateUsage` and dumps)
is carried in the results so that call counts are observable.
-/

/-- `LanguageModelUsage` from the `ai` package: token counts of one call. -/
structure LanguageModelUsage where
  promptTokens : Nat
  completionTokens : Nat
  totalTokens : Nat
  deriving DecidableEq, Repr

/-- `AgentUsage` (src/types/agent.ts): the agent call's own usage plus the
usages of any nested researcher invocations. -/
structure AgentUsage where
  agentUsage : Option LanguageModelUsage
  researcherUsages : Option (List LanguageModelUsage)
  deriving DecidableEq, Repr

/-- A `{title, url}` reference. -/
structure Reference where
  title : String
  url : String
  deriving DecidableEq, Repr

/-- A nested sub-heading of an outline section (src/types/agent.ts,
`ArticleOutline.sections[].subSections`). -/
structure SubSection where
  heading : String
  level : Nat
  deriving DecidableEq, Repr

/-- One section of an `ArticleOutline`: heading, nesting level and optional
sub-headings.  (`level` is a JS number used only as data; the orchestrator
never computes with it, so `Nat` is adequate.) -/
structure OutlineSection where
  heading : String
  level : Nat
  subSections : Option (List SubSection)
  deriving DecidableEq, Repr

/-- `ArticleOutline` (src/types/agent.ts). -/
structure ArticleOutline where
  title : String
  sections : List OutlineSection
  deriving DecidableEq, Repr

/-- `SectionPlan` (src/types/agent.ts). -/
structure SectionPlan where
  heading : String
  keyPoints : List String
  references : Option (List Reference)
  deriving DecidableEq, Repr

/-- `SectionContent` (src/types/agent.ts). -/
structure SectionContent where
  heading : String
  content : String
  references : Option (List Reference)
  deriving DecidableEq, Repr

/-- `SectionFeedback` (src/types/agent.ts). -/
structure SectionFeedback where
  approved : Bool
  feedback : List String
  deriving DecidableEq, Repr

/-- Priority of a proposed edit. -/
inductive Priority where
  | HIGH
  | MEDIUM
  | LOW
  deriving DecidableEq, Repr

/-- `ProposedEdit` (src/types/agent.ts). -/
structure ProposedEdit where
  sectionHeading : String
  originalText : String
  feedback : String
  newText : String
  priority : Priority
  deriving DecidableEq, Repr

/-- Failures of an external generative call (§7 of the spec): schema
violation, provider fault, or the orchestrator's own
`Failed to generate content for section` throw. -/
inductive AgentError where
  | schemaValidationError (msg : String)
  | providerError (msg : String)
  | failedToGenerate (sectionHeading : String)
  deriving DecidableEq, Repr

/-! ## ECMAScript `String.prototype.replace` with a string pattern

`sectionContent.replace(edit.originalText, edit.newText)` searches for the
first occurrence of `originalText` and, if found, substitutes `newText`
after processing the `GetSubstitution` dollar patterns `$$`, `$&`,
`$`+backquote (text before the match) and `$`+quote (text after the match);
any other text, including `$` followed by anything else, is copied
literally (there are no capture groups for a string pattern). -/

/-- The backquote character (code 96). -/
def backquoteChar : Char := Char.ofNat 96

/-- The single-quote character (code 39). -/
def singleQuoteChar : Char := Char.ofNat 39

/-- `leadsWith pat l` holds when `pat` is a prefix of `l`. -/
def leadsWith : List Char → List Char → Bool
  | [], _ => true
  | _ :: _, [] => false
  | p :: ps, c :: cs => p == c && leadsWith ps cs

/-- Index of the first occurrence of `pat` in `l`
(ECMAScript `String.prototype.indexOf`; the empty pattern occurs at 0). -/
def firstOccur : List Char → List Char → Option Nat
  | [], pat => if leadsWith pat [] then some 0 else none
  | c :: rest, pat =>
    if leadsWith pat (c :: rest) then some 0
    else (firstOccur rest pat).map (· + 1)

/-- Whether `pat` occurs in `s` as a (contiguous) substring. -/
def occursIn (s pat : String) : Bool := (firstOccur s.data pat.data).isSome

/-- ECMAScript `GetSubstitution` for a string search pattern: expand the
replacement text, interpreting `$$`, `$&`, `$`+backquote, `$`+quote; with no
capture groups every other sequence is literal. -/
def getSubst (matched before after : List Char) : List Char → List Char
  | [] => []
  | [c] => [c]
  | c :: c₂ :: rest =>
    if c == '$' then
      if c₂ == '$' then '$' :: getSubst matched before after rest
      else if c₂ == '&' then matched ++ getSubst matched before after rest
      else if c₂ == backquoteChar then before ++ getSubst matched before after rest
      else if c₂ == singleQuoteChar then after ++ getSubst matched before after rest
      else c :: getSubst matched before after (c₂ :: rest)
    else c :: getSubst matched before after (c₂ :: rest)

/-- `s.replace(pat, rep)` for string arguments: replace the first occurrence
of `pat` by the `GetSubstitution` expansion of `rep`; return `s` unchanged
when `pat` does not occur. -/
def jsReplace (s pat rep : String) : String :=
  match firstOccur s.data pat.data with
  | none => s
  | some i =>
    let before := s.data.take i
    let after := s.data.drop (i + pat.data.length)
    ⟨before ++ getSubst pat.data before after rep.data ++ after⟩

/-! ## The renderer (src/utils/applyEdits.ts) -/

/-- Parameter record of `applyEditsAndGenerateMarkdown`. -/
structure RenderParams where
  title : String
  sections : List SectionContent
  proposedEdits : List ProposedEdit
  globalFeedback : List String
  deriving DecidableEq, Repr

/-- The inner edit loop of the renderer: starting from `section.content`,
apply, in order, every proposed edit whose `sectionHeading` matches
(`sectionContent.replace(edit.originalText, edit.newText)`). -/
def applyEditsToSection (edits : List ProposedEdit) (heading content : String) : String :=
  edits.foldl
    (fun sectionContent edit =>
      if edit.sectionHeading == heading then
        jsReplace sectionContent edit.originalText edit.newText
      else sectionContent)
    content

/-- `applyEditsAndGenerateMarkdown` (src/utils/applyEdits.ts): `# title`,
then each section as `## heading` plus its edited body, then an
`## Editorial Notes` block when `globalFeedback` is non-empty, then a
`## References` block when any section carries references. -/
def applyEditsAndGenerateMarkdown (params : RenderParams) : String :=
  let markdown := "# " ++ params.title ++ "\n\n"
  let markdown := params.sections.foldl
    (fun markdown s =>
      markdown ++
        ("## " ++ s.heading ++ "\n\n" ++
          applyEditsToSection params.proposedEdits s.heading s.content ++ "\n\n"))
    markdown
  let markdown :=
    if params.globalFeedback.length > 0 then
      (params.globalFeedback.foldl
        (fun markdown feedback => markdown ++ ("- " ++ feedback ++ "\n"))
        (markdown ++ "## Editorial Notes\n\n")) ++ "\n"
    else markdown
  let allReferences := (params.sections.map (fun s => s.references.getD [])).flatten
  if allReferences.length > 0 then
    (allReferences.foldl
      (fun markdown ref => markdown ++ ("- [" ++ ref.title ++ "](" ++ ref.url ++ ")\n"))
      (markdown ++ "## References\n\n")) ++ "\n"
  else markdown

/-! ## Agent interfaces (src/types/agent.ts `AgentIO`)

Each external generative agent is an oracle from the exact input record the
orchestrator passes to an `Except`-wrapped output: `Except.error` models a
rejected promise (schema or provider failure), `Except.ok` a resolved one. -/

/-- `ArticleInput` (src/types/article.ts). -/
structure ArticleInput where
  subject : String
  customInstructions : Option String
  deriving DecidableEq, Repr

/-- Input of `OutlinerAgent.run`. -/
structure OutlinerInput where
  subject : String
  customInstructions : Option String
  deriving DecidableEq, Repr

/-- Output of `OutlinerAgent.run`. -/
structure OutlinerOutput where
  outline : ArticleOutline
  usage : AgentUsage
  deriving DecidableEq, Repr

/-- Input of `ContentStrategistAgent.run`.  The TS field `section` is a Lean
keyword, so it is named `sec` here. -/
structure ContentStrategistInput where
  outline : ArticleOutline
  sec : OutlineSection
  customInstructions : Option String
  previousStrategies : List SectionPlan
  deriving DecidableEq, Repr

/-- Output of `ContentStrategistAgent.run`. -/
structure ContentStrategistOutput where
  plan : SectionPlan
  usage : AgentUsage
  deriving DecidableEq, Repr

/-- The `currentFeedback` record threaded through the revision loop in
`writeArticle` and passed to the writer as `feedback`. -/
structure RevisionFeedback where
  previousContent : SectionContent
  editorFeedback : SectionFeedback
  deriving DecidableEq, Repr

/-- Input of `WriterAgent.run`. -/
structure WriterInput where
  plan : SectionPlan
  customInstructions : Option String
  feedback : Option RevisionFeedback
  deriving DecidableEq, Repr

/-- Output of `WriterAgent.run`. -/
structure WriterOutput where
  content : SectionContent
  responseToEditorFeedback : Option String
  usage : AgentUsage
  deriving DecidableEq, Repr

/-- The `feedback` record `writeArticle` passes to `EditorAgent.run`. -/
structure EditorFeedbackInput where
  previousContent : SectionContent
  previousFeedback : SectionFeedback
  writerResponse : Option String
  deriving DecidableEq, Repr

/-- Input of `EditorAgent.run`. -/
structure EditorInput where
  content : SectionContent
  customInstructions : Option String
  feedback : Option EditorFeedbackInput
  deriving DecidableEq, Repr

/-- Output of `EditorAgent.run`. -/
structure EditorOutput where
  feedback : SectionFeedback
  usage : AgentUsage
  deriving DecidableEq, Repr

/-- The `writerOutput` record `writeArticle` passes to the editor in chief. -/
structure WriterPhaseOutput where
  outline : ArticleOutline
  contentStrategy : List SectionPlan
  sections : List SectionContent
  deriving DecidableEq, Repr

/-- Input of `EditorInChiefAgent.run`. -/
structure EditorInChiefInput where
  userInput : ArticleInput
  writerOutput : WriterPhaseOutput
  deriving DecidableEq, Repr

/-- Output of `EditorInChiefAgent.run`. -/
structure EditorInChiefOutput where
  finalArticleTitle : String
  globalFeedback : List String
  proposedEdits : List ProposedEdit
  usage : AgentUsage
  deriving DecidableEq, Repr

/-- The bundle of external generative agents consumed by `writeArticle`. -/
structure Agents where
  outliner : OutlinerInput → Except AgentError OutlinerOutput
  contentStrategist : ContentStrategistInput → Except AgentError ContentStrategistOutput
  writer : WriterInput → Except AgentError WriterOutput
  editor : EditorInput → Except AgentError EditorOutput
  editorInChief : EditorInChiefInput → Except AgentError EditorInChiefOutput

/-! ## The per-section revision loop (Phase 3 of `writeArticle`) -/

/-- `MAX_ITERATIONS` in `writeArticle`. -/
def MAX_ITERATIONS : Nat := 3

deriving instance DecidableEq for Except

/-- Observable outcome of running one section's revision loop: the final
`currentContent` (or the first error raised by a writer/editor call), the
final `isApproved` flag, the final value of the `iterations` counter, the
usage records pushed for the WRITER and EDITOR roles, and the trace of the
`iterations` counter at each executed loop entry. -/
structure SectionRun where
  result : Except AgentError (Option SectionContent)
  isApproved : Bool
  iterations : Nat
  writerUsages : List AgentUsage
  editorUsages : List AgentUsage
  iterTrace : List Nat
  deriving DecidableEq, Repr

/-- The input record `writeArticle` passes to `writer.run` on a loop entry
with revision context `currentFeedback`. -/
def writerCallInput (sectionPlan : SectionPlan) (customInstructions : Option String)
    (currentFeedback : Option RevisionFeedback) : WriterInput :=
  { plan := sectionPlan, customInstructions := customInstructions,
    feedback := currentFeedback }

/-- The input record `writeArticle` passes to `editor.run` right after the
writer produced `writerResult` in a loop entry with revision context
`currentFeedback`. -/
def editorCallInput (writerResult : WriterOutput) (customInstructions : Option String)
    (currentFeedback : Option RevisionFeedback) : EditorInput :=
  { content := writerResult.content, customInstructions := customInstructions,
    feedback := currentFeedback.map (fun f =>
      { previousContent := f.previousContent,
        previousFeedback := f.editorFeedback,
        writerResponse := writerResult.responseToEditorFeedback }) }

/-- The `while (!isApproved && iterations < MAX_ITERATIONS)` loop body of
`writeArticle`, with `fuel = MAX_ITERATIONS - iterations` making the loop
guard structural.  Usage records are kept even on an error exit, mirroring
the shared `usages` object that survives a thrown error. -/
def revisionLoop (writer : WriterInput → Except AgentError WriterOutput)
    (editor : EditorInput → Except AgentError EditorOutput)
    (sectionPlan : SectionPlan) (customInstructions : Option String) :
    Nat → Nat → Option SectionContent → Option RevisionFeedback →
    List AgentUsage → List AgentUsage → List Nat → SectionRun
  | 0, iterations, currentContent, _, writerUsages, editorUsages, iterTrace =>
    { result := .ok currentContent, isApproved := false, iterations := iterations,
      writerUsages := writerUsages, editorUsages := editorUsages, iterTrace := iterTrace }
  | fuel + 1, iterations0, _, currentFeedback, writerUsages, editorUsages, iterTrace =>
    let iterations := iterations0 + 1
    match writer (writerCallInput sectionPlan customInstructions currentFeedback) with
    | .error e =>
      { result := .error e, isApproved := false, iterations := iterations,
        writerUsages := writerUsages, editorUsages := editorUsages,
        iterTrace := iterTrace ++ [iterations] }
    | .ok writerResult =>
      let writerUsages := writerUsages ++ [writerResult.usage]
      match editor (editorCallInput writerResult customInstructions currentFeedback) with
      | .error e =>
        { result := .error e, isApproved := false, iterations := iterations,
          writerUsages := writerUsages, editorUsages := editorUsages,
          iterTrace := iterTrace ++ [iterations] }
      | .ok editorResult =>
        let editorUsages := editorUsages ++ [editorResult.usage]
        if editorResult.feedback.approved then
          { result := .ok (some writerResult.content), isApproved := true,
            iterations := iterations, writerUsages := writerUsages,
            editorUsages := editorUsages, iterTrace := iterTrace ++ [iterations] }
        else if 0 < fuel then
          revisionLoop writer editor sectionPlan customInstructions fuel iterations
            (some writerResult.content)
            (some { previousContent := writerResult.content,
                    editorFeedback := editorResult.feedback })
            writerUsages editorUsages (iterTrace ++ [iterations])
        else
          { result := .ok (some writerResult.content), isApproved := false,
            iterations := iterations, writerUsages := writerUsages,
            editorUsages := editorUsages, iterTrace := iterTrace ++ [iterations] }

/-- One section's revision state machine, started as in `writeArticle`:
`isApproved = false`, `iterations = 0`, no content, no feedback. -/
def runSection (writer : WriterInput → Except AgentError WriterOutput)
    (editor : EditorInput → Except AgentError EditorOutput)
    (customInstructions : Option String) (sectionPlan : SectionPlan) : SectionRun :=
  revisionLoop writer editor sectionPlan customInstructions MAX_ITERATIONS 0 none none [] [] []

/-- End of the per-section task: return the final `currentContent`, or throw
`Failed to generate content for section: …` when there is none. -/
def sectionOutcome (sectionPlan : SectionPlan) (run : SectionRun) :
    Except AgentError SectionContent :=
  match run.result with
  | .error e => .error e
  | .ok (some currentContent) => .ok currentContent
  | .ok none => .error (.failedToGenerate sectionPlan.heading)

/-- The `Promise.all` join of Phase 3: the per-section outcomes in plan
order, or the first (by index) failure. -/
def joinSectionRuns : List SectionPlan → List SectionRun →
    Except AgentError (List SectionContent)
  | [], _ => .ok []
  | _ :: _, [] => .ok []
  | p :: ps, r :: rs =>
    match sectionOutcome p r with
    | .error e => .error e
    | .ok c =>
      match joinSectionRuns ps rs with
      | .error e => .error e
      | .ok cs => .ok (c :: cs)

/-! ## The Phase 2 strategy fold -/

/-- Observable outcome of the Phase 2 loop: the final `contentStrategy`
array, the usage records pushed for CONTENT_STRATEGIST (in call order), and
the input record of each `contentStrategist.run` call (in call order). -/
structure StrategyFoldResult where
  plans : List SectionPlan
  usages : List AgentUsage
  calls : List ContentStrategistInput
  deriving DecidableEq, Repr

/-- The `for (const section of articleOutline.sections)` loop of Phase 2:
a left fold whose accumulator is the `contentStrategy` array; each call
receives the full outline, the current section, the custom instructions and
all previously produced plans. -/
def strategyFold
    (contentStrategist : ContentStrategistInput → Except AgentError ContentStrategistOutput)
    (outline : ArticleOutline) (customInstructions : Option String) :
    List OutlineSection → List SectionPlan → Except AgentError StrategyFoldResult
  | [], contentStrategy => .ok { plans := contentStrategy, usages := [], calls := [] }
  | s :: rest, contentStrategy =>
    let call : ContentStrategistInput :=
      { outline := outline, sec := s, customInstructions := customInstructions,
        previousStrategies := contentStrategy }
    match contentStrategist call with
    | .error e => .error e
    | .ok result =>
      match strategyFold contentStrategist outline customInstructions rest
          (contentStrategy ++ [result.plan]) with
      | .error e => .error e
      | .ok r =>
        .ok { plans := r.plans, usages := result.usage :: r.usages, calls := call :: r.calls }

/-! ## Usage and cost aggregation (src/utils/calculateUsage.ts) -/

/-- The priced models. -/
inductive Model where
  | o1
  | gpt_4o
  | gpt_4o_mini
  deriving DecidableEq, Repr

/-- Per-million-token input/output rates. -/
structure ModelRates where
  input : ℚ
  output : ℚ
  deriving DecidableEq, Repr

/-- `COST_PER_1M_TOKENS` (src/utils/calculateUsage.ts). -/
def COST_PER_1M_TOKENS : Model → ModelRates
  | .o1 => { input := 15, output := 60 }
  | .gpt_4o => { input := 2.5, output := 10 }
  | .gpt_4o_mini => { input := 0.15, output := 0.6 }

/-- `calculateModelCost`: `promptTokens/1M × input + completionTokens/1M × output`. -/
def calculateModelCost (usage : LanguageModelUsage) (model : Model) : ℚ :=
  let costs := COST_PER_1M_TOKENS model
  let inputCost := ((usage.promptTokens : ℚ) / 1000000) * costs.input
  let outputCost := ((usage.completionTokens : ℚ) / 1000000) * costs.output
  inputCost + outputCost

/-- `calculateResearcherCost`: every nested researcher usage is priced at the
`gpt-4o-mini` rates; missing or empty lists cost 0. -/
def calculateResearcherCost (researcherUsages : Option (List LanguageModelUsage)) : ℚ :=
  match researcherUsages with
  | none => 0
  | some usages =>
    if usages.length = 0 then 0
    else usages.foldl (fun total usage => total + calculateModelCost usage .gpt_4o_mini) 0

/-- Accumulated `{selfCost, researcherCost}` of one role. -/
structure AgentCosts where
  selfCost : ℚ
  researcherCost : ℚ
  deriving DecidableEq, Repr

/-- The usage ledger: per-role lists of `AgentUsage` records, in the
role-key insertion order of `writeArticle`'s `usages` object.  (The TS code
also guards against `undefined` list entries, which the declared types rule
out; the ledger therefore holds plain records.) -/
structure UsageLedger where
  OUTLINER : List AgentUsage
  CONTENT_STRATEGIST : List AgentUsage
  WRITER : List AgentUsage
  EDITOR : List AgentUsage
  EDITOR_IN_CHIEF : List AgentUsage
  deriving DecidableEq, Repr

/-- The inner loop of `calculateUsage` for one role: add each record's self
cost (at the role's model) and its nested researcher cost. -/
def roleAgentCosts (model : Model) (usages : List AgentUsage) : AgentCosts :=
  usages.foldl
    (fun costs agentUsage =>
      { selfCost := costs.selfCost +
          (match agentUsage.agentUsage with
           | some u => calculateModelCost u model
           | none => 0),
        researcherCost := costs.researcherCost +
          calculateResearcherCost agentUsage.researcherUsages })
    { selfCost := 0, researcherCost := 0 }

/-- `UsageCosts` (src/utils/calculateUsage.ts): per-role costs plus the
`total.agentCosts` / `total.researchCosts` pair. -/
structure UsageCosts where
  OUTLINER : AgentCosts
  CONTENT_STRATEGIST : AgentCosts
  WRITER : AgentCosts
  EDITOR : AgentCosts
  EDITOR_IN_CHIEF : AgentCosts
  totalAgentCosts : ℚ
  totalResearchCosts : ℚ
  deriving DecidableEq, Repr

/-- `calculateUsage` (src/utils/calculateUsage.ts).  OUTLINER and
EDITOR_IN_CHIEF records are priced as `o1`, the other roles as `gpt-4o`;
the totals sum the five roles' self costs and researcher costs. -/
def calculateUsage (usage : UsageLedger) : UsageCosts :=
  let outlinerCosts := roleAgentCosts .o1 usage.OUTLINER
  let strategistCosts := roleAgentCosts .gpt_4o usage.CONTENT_STRATEGIST
  let writerCosts := roleAgentCosts .gpt_4o usage.WRITER
  let editorCosts := roleAgentCosts .gpt_4o usage.EDITOR
  let editorInChiefCosts := roleAgentCosts .o1 usage.EDITOR_IN_CHIEF
  { OUTLINER := outlinerCosts,
    CONTENT_STRATEGIST := strategistCosts,
    WRITER := writerCosts,
    EDITOR := editorCosts,
    EDITOR_IN_CHIEF := editorInChiefCosts,
    totalAgentCosts := outlinerCosts.selfCost + strategistCosts.selfCost +
      writerCosts.selfCost + editorCosts.selfCost + editorInChiefCosts.selfCost,
    totalResearchCosts := outlinerCosts.researcherCost + strategistCosts.researcherCost +
      writerCosts.researcherCost + editorCosts.researcherCost +
      editorInChiefCosts.researcherCost }

/-! ## The pipeline orchestrator (`writeArticle`) -/

/-- Result of a successful `writeArticle` run.  `usages` is the final state
of the shared ledger (which the code dumps to `tmp/tmp_usages.json` and
feeds to `calculateUsage`); WRITER and EDITOR records of the concurrent
Phase 3 tasks are serialised in section order, which is harmless because the
totals are commutative sums. -/
structure ArticleResult where
  finalMarkdown : String
  cost : ℚ
  usages : UsageLedger
  deriving DecidableEq, Repr

/-- `writeArticle` (the orchestrator): Phase 1 outline, Phase 2 strategy
fold, Phase 3 concurrent revision loops joined by `Promise.all`, Phase 4
final review, Phase 5 rendering plus cost totalling.  The `try/catch`
rethrows, so any stage failure propagates as `Except.error`. -/
def writeArticle (agents : Agents) (input : ArticleInput) :
    Except AgentError ArticleResult :=
  match agents.outliner { subject := input.subject,
                          customInstructions := input.customInstructions } with
  | .error e => .error e
  | .ok outlinerResult =>
    let articleOutline := outlinerResult.outline
    match strategyFold agents.contentStrategist articleOutline input.customInstructions
        articleOutline.sections [] with
    | .error e => .error e
    | .ok strat =>
      let contentStrategy := strat.plans
      let sectionRuns :=
        contentStrategy.map (runSection agents.writer agents.editor input.customInstructions)
      match joinSectionRuns contentStrategy sectionRuns with
      | .error e => .error e
      | .ok sectionContents =>
        match agents.editorInChief
            { userInput := input,
              writerOutput := { outline := articleOutline,
                                contentStrategy := contentStrategy,
                                sections := sectionContents } } with
        | .error e => .error e
        | .ok review =>
          let finalMarkdown := applyEditsAndGenerateMarkdown
            { title := review.finalArticleTitle, sections := sectionContents,
              proposedEdits := review.proposedEdits,
              globalFeedback := review.globalFeedback }
          let usages : UsageLedger :=
            { OUTLINER := [outlinerResult.usage],
              CONTENT_STRATEGIST := strat.usages,
              WRITER := (sectionRuns.map (fun r => r.writerUsages)).flatten,
              EDITOR := (sectionRuns.map (fun r => r.editorUsages)).flatten,
              EDITOR_IN_CHIEF := [review.usage] }
          let costs := calculateUsage usages
          .ok { finalMarkdown := finalMarkdown,
                cost := costs.totalAgentCosts + costs.totalResearchCosts,
                usages := usages }

/-! ## Fan-out/fan-in as indexed tasks

`Promise.all` delivers each concurrent task's value at the task's input
index; completion order is immaterial.  To state that, the Phase 3 tasks are
modelled as `(index, run)` pairs, an arbitrary completion order is an
arbitrary permutation of that list, and the join looks each index up. -/

/-- The Phase 3 task list, indexed from `k`: task `k + i` runs the revision
loop on plan `i` of the list. -/
def sectionTasksFrom (writer : WriterInput → Except AgentError WriterOutput)
    (editor : EditorInput → Except AgentError EditorOutput)
    (customInstructions : Option String) (k : Nat) :
    List SectionPlan → List (Nat × SectionRun)
  | [] => []
  | p :: ps =>
    (k, runSection writer editor customInstructions p) ::
      sectionTasksFrom writer editor customInstructions (k + 1) ps

/-- The Phase 3 task list of a plan list, indexed from 0. -/
def sectionTasks (writer : WriterInput → Except AgentError WriterOutput)
    (editor : EditorInput → Except AgentError EditorOutput)
    (customInstructions : Option String) (plans : List SectionPlan) :
    List (Nat × SectionRun) :=
  sectionTasksFrom writer editor customInstructions 0 plans

/-- Reassemble completed `(index, run)` tasks into the output slots
`i, i+1, …, i+count-1`: slot `j` receives the value delivered by the task
with index `j`, irrespective of where that task sits in `completed`. -/
def joinFrom (completed : List (Nat × SectionRun)) : Nat → Nat → Option (List SectionRun)
  | _, 0 => some []
  | i, count + 1 =>
    match completed.find? (fun task => task.1 == i) with
    | none => none
    | some task => (joinFrom completed (i + 1) count).map (fun rest => task.2 :: rest)

/-- The fan-in reassembly: `n` output slots, filled by task index from 0. -/
def joinByIndex (completed : List (Nat × SectionRun)) (n : Nat) :
    Option (List SectionRun) :=
  joinFrom completed 0 n

/-! ## Spec-side definitions used to state the claims -/

/-- Spec-side (claim C9 wording): replace the first occurrence of `pat` by
`rep` inserted verbatim, character for character. -/
def verbatimReplaceFirst (s pat rep : String) : String :=
  match firstOccur s.data pat.data with
  | none => s
  | some i => ⟨s.data.take i ++ rep.data ++ s.data.drop (i + pat.data.length)⟩

/-- What one `AgentUsage` record's own call contributes when priced at
`model`: exactly `calculateModelCost` of its self usage (0 when absent). -/
def selfRecordCost (model : Model) (a : AgentUsage) : ℚ :=
  match a.agentUsage with
  | some u => calculateModelCost u model
  | none => 0

/-- What one `AgentUsage` record's nested researcher usages contribute:
each priced once at the `gpt-4o-mini` rates. -/
def researchRecordCost (a : AgentUsage) : ℚ :=
  ((a.researcherUsages.getD []).map (fun u => calculateModelCost u .gpt_4o_mini)).sum

/-- The strategist-call input expected at positions `k, k+1, …` of the
Phase 2 fold when the full produced plan list is `plans`: call `k` carries
`plans.take k` as its `previousStrategies`. -/
def callsFrom (outline : ArticleOutline) (customInstructions : Option String)
    (plans : List SectionPlan) : Nat → List OutlineSection → List ContentStrategistInput
  | _, [] => []
  | k, s :: rest =>
    { outline := outline, sec := s, customInstructions := customInstructions,
      previousStrategies := plans.take k } ::
      callsFrom outline customInstructions plans (k + 1) rest

/-- Each listed call produced (via the strategist oracle) the plan and usage
record at the same position. -/
def producesPlans
    (contentStrategist : ContentStrategistInput → Except AgentError ContentStrategistOutput) :
    List ContentStrategistInput → List SectionPlan → List AgentUsage → Prop
  | [], [], [] => True
  | call :: calls, p :: ps, u :: us =>
    contentStrategist call = .ok { plan := p, usage := u } ∧
      producesPlans contentStrategist calls ps us
  | _, _, _ => False

/-- Concatenation of a list of strings (used to state the renderer's closed
form). -/
def stringConcat : List String → String
  | [] => ""
  | s :: rest => s ++ stringConcat rest

/-- Spec-side (claim C10 wording): exactly `# title` followed by the
per-section level-2 blocks (`## heading`, blank line, edited body) and
nothing else. -/
def claimedRenderC10 (params : RenderParams) : String :=
  "# " ++ params.title ++ "\n\n" ++
    stringConcat (params.sections.map (fun s =>
      "## " ++ s.heading ++ "\n\n" ++
        applyEditsToSection params.proposedEdits s.heading s.content ++ "\n\n"))

/-- The `## Editorial Notes` block (empty string when there is no global
feedback). -/
def editorialNotesBlock (globalFeedback : List String) : String :=
  if globalFeedback.length > 0 then
    "## Editorial Notes\n\n" ++
      stringConcat (globalFeedback.map (fun feedback => "- " ++ feedback ++ "\n")) ++ "\n"
  else ""

/-- The `## References` block (empty string when no section has
references). -/
def referencesBlock (sections : List SectionContent) : String :=
  let allReferences := (sections.map (fun s => s.references.getD [])).flatten
  if allReferences.length > 0 then
    "## References\n\n" ++
      stringConcat (allReferences.map (fun ref => "- [" ++ ref.title ++ "](" ++ ref.url ++ ")\n")) ++ "\n"
  else ""

/-! ## Concrete fixtures (stub agents used for witnesses and scenarios) -/

/-- A fixed usage record for stub agents. -/
def usage0 : AgentUsage :=
  { agentUsage := some { promptTokens := 10, completionTokens := 20, totalTokens := 30 },
    researcherUsages := none }

/-- A fixed section plan for stub agents. -/
def plan0 : SectionPlan := { heading := "Intro", keyPoints := ["p"], references := none }

/-- Scenario A's two-section outline. -/
def outlineC3 : ArticleOutline :=
  { title := "T0",
    sections := [{ heading := "A", level := 2, subSections := none },
                 { heading := "B", level := 2, subSections := none }] }

/-- Scenario A's pipeline input. -/
def inputC3 : ArticleInput := { subject := "s", customInstructions := none }

/-- Scenario A's stub agents: the editor approves section A at once and
section B only at its third draft (`b3`); the writer drafts `a1`/`b1` first
and bumps `b1 → b2 → b3` on feedback. -/
def agentsC3 : Agents :=
  { outliner := fun _ => .ok { outline := outlineC3, usage := usage0 },
    contentStrategist := fun input =>
      .ok { plan := { heading := input.sec.heading, keyPoints := [], references := none },
            usage := usage0 },
    writer := fun input =>
      .ok { content :=
              { heading := input.plan.heading,
                content :=
                  match input.feedback with
                  | none => if input.plan.heading == "A" then "a1" else "b1"
                  | some fb => if fb.previousContent.content == "b1" then "b2" else "b3",
                references := none },
            responseToEditorFeedback := none, usage := usage0 },
    editor := fun input =>
      .ok { feedback :=
              { approved := input.content.heading == "A" || input.content.content == "b3",
                feedback := ["more"] },
            usage := usage0 },
    editorInChief := fun _ =>
      .ok { finalArticleTitle := "T", globalFeedback := [], proposedEdits := [],
            usage := usage0 } }

/-- Stub writer that always succeeds with the same content. -/
def writerStub : WriterInput → Except AgentError WriterOutput := fun input =>
  .ok { content := { heading := input.plan.heading, content := "draft", references := none },
        responseToEditorFeedback := none, usage := usage0 }

/-- Stub editor that always rejects. -/
def editorRejectStub : EditorInput → Except AgentError EditorOutput := fun _ =>
  .ok { feedback := { approved := false, feedback := ["redo"] }, usage := usage0 }

/-- Stub editor that always approves. -/
def editorApproveStub : EditorInput → Except AgentError EditorOutput := fun _ =>
  .ok { feedback := { approved := true, feedback := [] }, usage := usage0 }

/-- A second plan, to exercise two-section fan-out. -/
def plan1 : SectionPlan := { heading := "Body", keyPoints := ["q"], references := none }

/-- Scenario C's stub agents: the outline has two sections and the
strategist fails (provider error) as soon as it is handed one previous
strategy, i.e. on the fold's second step. -/
def agentsC5 : Agents :=
  { outliner := fun _ => .ok { outline := outlineC3, usage := usage0 },
    contentStrategist := fun input =>
      if input.previousStrategies.length == 0 then
        .ok { plan := { heading := input.sec.heading, keyPoints := [], references := none },
              usage := usage0 }
      else .error (.providerError "rate limit"),
    writer := writerStub,
    editor := editorApproveStub,
    editorInChief := fun _ =>
      .ok { finalArticleTitle := "T", globalFeedback := [], proposedEdits := [],
            usage := usage0 } }

/-- Stub strategist that plans every section it is given. -/
def strategistStub : ContentStrategistInput → Except AgentError ContentStrategistOutput :=
  fun input =>
    .ok { plan := { heading := input.sec.heading,
                    keyPoints := [toString input.previousStrategies.length],
                    references := none },
          usage := usage0 }

/-- The result of running the Phase 2 fold with `strategistStub` over
`outlineC3` (used by a witness below). -/
def stratFoldResultW : StrategyFoldResult :=
  { plans := [{ heading := "A", keyPoints := ["0"], references := none },
              { heading := "B", keyPoints := ["1"], references := none }],
    usages := [usage0, usage0],
    calls := [{ outline := outlineC3,
                sec := { heading := "A", level := 2, subSections := none },
                customInstructions := none, previousStrategies := [] },
              { outline := outlineC3,
                sec := { heading := "B", level := 2, subSections := none },
                customInstructions := none,
                previousStrategies := [{ heading := "A", keyPoints := ["0"],
                                         references := none }] }] }

/-- A dollar-free proposed edit (used by a witness below). -/
def edW : ProposedEdit :=
  { sectionHeading := "H", originalText := "b", feedback := "note", newText := "X",
    priority := .LOW }

/-! # Theorems -/

/-- Invariant of the revision loop, for any oracles and any starting state:
the `iterations` counter only grows, by at most `fuel`; at most `fuel`
usage records are appended per role; and the trace of counter values seen at
the loop entries is the contiguous run `iterations+1, …` — i.e. the counter
increases by exactly one per round-trip. -/
theorem revisionLoop_spec (writer : WriterInput → Except AgentError WriterOutput)
    (editor : EditorInput → Except AgentError EditorOutput)
    (sectionPlan : SectionPlan) (ci : Option String) :
    ∀ (fuel iterations : Nat) (cc : Option SectionContent) (cf : Option RevisionFeedback)
      (wu eu : List AgentUsage) (tr : List Nat),
      iterations ≤
          (revisionLoop writer editor sectionPlan ci fuel iterations cc cf wu eu tr).iterations ∧
      (revisionLoop writer editor sectionPlan ci fuel iterations cc cf wu eu tr).iterations ≤
          iterations + fuel ∧
      (revisionLoop writer editor sectionPlan ci fuel iterations cc cf wu eu tr).writerUsages.length ≤
          wu.length + fuel ∧
      (revisionLoop writer editor sectionPlan ci fuel iterations cc cf wu eu tr).editorUsages.length ≤
          eu.length + fuel ∧
      (revisionLoop writer editor sectionPlan ci fuel iterations cc cf wu eu tr).iterTrace =
        tr ++ List.range' (iterations + 1)
          ((revisionLoop writer editor sectionPlan ci fuel iterations cc cf wu eu tr).iterations
            - iterations) := by
  intro fuel
  induction fuel with
  | zero =>
    intro iterations cc cf wu eu tr
    simp [revisionLoop]
  | succ fuel ih =>
    intro iterations cc cf wu eu tr
    have h1 : iterations + 1 - iterations = 1 := by omega
    simp only [revisionLoop]
    split
    · refine ⟨?_, ?_, ?_, ?_, ?_⟩ <;> simp [h1, List.range'_one]
    · rename_i w hw
      split
      · refine ⟨?_, ?_, ?_, ?_, ?_⟩ <;> simp [h1, List.range'_one]
      · rename_i ed he
        split
        · refine ⟨?_, ?_, ?_, ?_, ?_⟩ <;> simp [h1, List.range'_one]
        · split
          · rename_i hnap hfuel
            obtain ⟨r1, r2, r3, r4, r5⟩ := ih (iterations + 1) (some w.content)
              (some { previousContent := w.content, editorFeedback := ed.feedback })
              (wu ++ [w.usage]) (eu ++ [ed.usage]) (tr ++ [iterations + 1])
            simp only [List.length_append, List.length_singleton] at r3 r4
            set n := (revisionLoop writer editor sectionPlan ci fuel (iterations + 1)
              (some w.content)
              (some { previousContent := w.content, editorFeedback := ed.feedback })
              (wu ++ [w.usage]) (eu ++ [ed.usage]) (tr ++ [iterations + 1])).iterations with hn
            refine ⟨by omega, by omega, by omega, by omega, ?_⟩
            rw [r5]
            have hd : n - iterations = (n - (iterations + 1)) + 1 := by omega
            rw [hd, List.range'_succ]
            simp
          · refine ⟨?_, ?_, ?_, ?_, ?_⟩ <;> simp [h1, List.range'_one]

/-- C2: for every section plan and every sequence of editor verdicts (any
writer/editor oracles), the revision loop performs at most
`MAX_ITERATIONS = 3` draft calls and at most 3 review calls, terminates (it
is a total function of its inputs), and its iteration counter takes exactly
the values `1, 2, …, k` with `k ≤ 3`: it increases by one per round-trip and
never exceeds 3. -/
theorem claim_C2_revision_loop_bounded
    (writer : WriterInput → Except AgentError WriterOutput)
    (editor : EditorInput → Except AgentError EditorOutput)
    (ci : Option String) (sectionPlan : SectionPlan) :
    (runSection writer editor ci sectionPlan).iterations ≤ MAX_ITERATIONS ∧
    (runSection writer editor ci sectionPlan).writerUsages.length ≤ MAX_ITERATIONS ∧
    (runSection writer editor ci sectionPlan).editorUsages.length ≤ MAX_ITERATIONS ∧
    (runSection writer editor ci sectionPlan).iterTrace =
      List.range' 1 (runSection writer editor ci sectionPlan).iterations := by
  have h := revisionLoop_spec writer editor sectionPlan ci MAX_ITERATIONS 0 none none [] [] []
  obtain ⟨h1, h2, h3, h4, h5⟩ := h
  unfold runSection
  refine ⟨by omega, by simpa using h3, by simpa using h4, ?_⟩
  simpa using h5

/-- C3 (Scenario A): with a 2-section outline where the editor approves
section A at iteration 1 and section B only at iteration 3, the pipeline
succeeds with exactly 4 WRITER usage records (draft calls) and 4 EDITOR
usage records (review calls), and the final document contains both sections
in outline order. -/
theorem claim_C3_scenario_a :
    ∃ r, writeArticle agentsC3 inputC3 = Except.ok r ∧
      r.usages.WRITER.length = 4 ∧ r.usages.EDITOR.length = 4 ∧
      r.finalMarkdown = "# T\n\n## A\n\na1\n\n## B\n\nb3\n\n" := by
  exact ⟨_, rfl, rfl, rfl, rfl⟩

/-- One rejected round-trip of the revision loop: when the writer and the
editor both succeed, the verdict is `approved = false` and iterations
remain (`0 < fuel`), the loop re-enters with the new revision context and
one usage record appended per role. -/
theorem revisionLoop_step (writer : WriterInput → Except AgentError WriterOutput)
    (editor : EditorInput → Except AgentError EditorOutput)
    (sectionPlan : SectionPlan) (ci : Option String)
    (fuel iterations : Nat) (cc : Option SectionContent) (cf : Option RevisionFeedback)
    (wu eu : List AgentUsage) (tr : List Nat) (w : WriterOutput) (ed : EditorOutput)
    (hw : writer (writerCallInput sectionPlan ci cf) = .ok w)
    (he : editor (editorCallInput w ci cf) = .ok ed)
    (hnap : ed.feedback.approved = false)
    (hfuel : 0 < fuel) :
    revisionLoop writer editor sectionPlan ci (fuel + 1) iterations cc cf wu eu tr =
      revisionLoop writer editor sectionPlan ci fuel (iterations + 1) (some w.content)
        (some { previousContent := w.content, editorFeedback := ed.feedback })
        (wu ++ [w.usage]) (eu ++ [ed.usage]) (tr ++ [iterations + 1]) := by
  simp [revisionLoop, hw, he, hnap, hfuel]

/-- The final rejected round-trip: with one unit of fuel left (the loop
entry at `iterations = MAX_ITERATIONS - 1`), a rejection exits the loop
carrying the just-drafted content, unapproved. -/
theorem revisionLoop_last (writer : WriterInput → Except AgentError WriterOutput)
    (editor : EditorInput → Except AgentError EditorOutput)
    (sectionPlan : SectionPlan) (ci : Option String)
    (iterations : Nat) (cc : Option SectionContent) (cf : Option RevisionFeedback)
    (wu eu : List AgentUsage) (tr : List Nat) (w : WriterOutput) (ed : EditorOutput)
    (hw : writer (writerCallInput sectionPlan ci cf) = .ok w)
    (he : editor (editorCallInput w ci cf) = .ok ed)
    (hnap : ed.feedback.approved = false) :
    revisionLoop writer editor sectionPlan ci (0 + 1) iterations cc cf wu eu tr =
      { result := .ok (some w.content), isApproved := false, iterations := iterations + 1,
        writerUsages := wu ++ [w.usage], editorUsages := eu ++ [ed.usage],
        iterTrace := tr ++ [iterations + 1] } := by
  simp [revisionLoop, hw, he, hnap]

/-- C4: when the editor rejects at every one of the 3 iterations while all
generation calls succeed, the loop ends in the Exhausted terminal state
(`isApproved = false` at `iterations = MAX_ITERATIONS`) returning the
content drafted in the third iteration, and the per-section task yields
`Except.ok` (the pipeline proceeds to Final Review instead of raising). -/
theorem claim_C4_exhausted_returns_last_draft
    (writer : WriterInput → Except AgentError WriterOutput)
    (editor : EditorInput → Except AgentError EditorOutput)
    (ci : Option String) (sectionPlan : SectionPlan)
    (w1 w2 w3 : WriterOutput) (ed1 ed2 ed3 : EditorOutput)
    (hw1 : writer (writerCallInput sectionPlan ci none) = .ok w1)
    (he1 : editor (editorCallInput w1 ci none) = .ok ed1)
    (ha1 : ed1.feedback.approved = false)
    (hw2 : writer (writerCallInput sectionPlan ci
        (some { previousContent := w1.content, editorFeedback := ed1.feedback })) = .ok w2)
    (he2 : editor (editorCallInput w2 ci
        (some { previousContent := w1.content, editorFeedback := ed1.feedback })) = .ok ed2)
    (ha2 : ed2.feedback.approved = false)
    (hw3 : writer (writerCallInput sectionPlan ci
        (some { previousContent := w2.content, editorFeedback := ed2.feedback })) = .ok w3)
    (he3 : editor (editorCallInput w3 ci
        (some { previousContent := w2.content, editorFeedback := ed2.feedback })) = .ok ed3)
    (ha3 : ed3.feedback.approved = false) :
    runSection writer editor ci sectionPlan =
      { result := .ok (some w3.content), isApproved := false, iterations := 3,
        writerUsages := [w1.usage, w2.usage, w3.usage],
        editorUsages := [ed1.usage, ed2.usage, ed3.usage],
        iterTrace := [1, 2, 3] } ∧
    sectionOutcome sectionPlan (runSection writer editor ci sectionPlan) = .ok w3.content := by
  have hrun : runSection writer editor ci sectionPlan =
      { result := .ok (some w3.content), isApproved := false, iterations := 3,
        writerUsages := [w1.usage, w2.usage, w3.usage],
        editorUsages := [ed1.usage, ed2.usage, ed3.usage],
        iterTrace := [1, 2, 3] } := by
    calc
      runSection writer editor ci sectionPlan
          = revisionLoop writer editor sectionPlan ci 3 0 none none [] [] [] := rfl
      _ = revisionLoop writer editor sectionPlan ci 2 1 (some w1.content)
            (some { previousContent := w1.content, editorFeedback := ed1.feedback })
            [w1.usage] [ed1.usage] [1] :=
        revisionLoop_step writer editor sectionPlan ci 2 0 none none [] [] [] w1 ed1
          hw1 he1 ha1 (by omega)
      _ = revisionLoop writer editor sectionPlan ci 1 2 (some w2.content)
            (some { previousContent := w2.content, editorFeedback := ed2.feedback })
            [w1.usage, w2.usage] [ed1.usage, ed2.usage] [1, 2] :=
        revisionLoop_step writer editor sectionPlan ci 1 1 (some w1.content)
          (some { previousContent := w1.content, editorFeedback := ed1.feedback })
          [w1.usage] [ed1.usage] [1] w2 ed2 hw2 he2 ha2 (by omega)
      _ = { result := .ok (some w3.content), isApproved := false, iterations := 3,
            writerUsages := [w1.usage, w2.usage, w3.usage],
            editorUsages := [ed1.usage, ed2.usage, ed3.usage],
            iterTrace := [1, 2, 3] } :=
        revisionLoop_last writer editor sectionPlan ci 2 (some w2.content)
          (some { previousContent := w2.content, editorFeedback := ed2.feedback })
          [w1.usage, w2.usage] [ed1.usage, ed2.usage] [1, 2] w3 ed3 hw3 he3 ha3
  refine ⟨hrun, ?_⟩
  rw [hrun]
  simp [sectionOutcome]

/-- Witness for C4: the always-rejecting stub editor drives the loop to
Exhausted after 3 round-trips and the last draft is returned. -/
theorem claim_C4_witness :
    runSection writerStub editorRejectStub none plan0 =
      { result := .ok (some { heading := "Intro", content := "draft", references := none }),
        isApproved := false, iterations := 3,
        writerUsages := [usage0, usage0, usage0],
        editorUsages := [usage0, usage0, usage0],
        iterTrace := [1, 2, 3] } ∧
    sectionOutcome plan0 (runSection writerStub editorRejectStub none plan0) =
      .ok { heading := "Intro", content := "draft", references := none } :=
  claim_C4_exhausted_returns_last_draft writerStub editorRejectStub none plan0
    _ _ _ _ _ _ rfl rfl rfl rfl rfl rfl rfl rfl rfl

/-- A writer call that fails on a loop entry makes the loop exit at once
with that error; no usage record is pushed for the failed call. -/
theorem revisionLoop_writer_error (writer : WriterInput → Except AgentError WriterOutput)
    (editor : EditorInput → Except AgentError EditorOutput)
    (sectionPlan : SectionPlan) (ci : Option String)
    (fuel iterations : Nat) (cc : Option SectionContent) (cf : Option RevisionFeedback)
    (wu eu : List AgentUsage) (tr : List Nat) (e : AgentError)
    (hw : writer (writerCallInput sectionPlan ci cf) = .error e) :
    revisionLoop writer editor sectionPlan ci (fuel + 1) iterations cc cf wu eu tr =
      { result := .error e, isApproved := false, iterations := iterations + 1,
        writerUsages := wu, editorUsages := eu, iterTrace := tr ++ [iterations + 1] } := by
  simp [revisionLoop, hw]

/-- An editor call that fails after a successful draft makes the loop exit
at once with that error, keeping the writer's usage record. -/
theorem revisionLoop_editor_error (writer : WriterInput → Except AgentError WriterOutput)
    (editor : EditorInput → Except AgentError EditorOutput)
    (sectionPlan : SectionPlan) (ci : Option String)
    (fuel iterations : Nat) (cc : Option SectionContent) (cf : Option RevisionFeedback)
    (wu eu : List AgentUsage) (tr : List Nat) (w : WriterOutput) (e : AgentError)
    (hw : writer (writerCallInput sectionPlan ci cf) = .ok w)
    (he : editor (editorCallInput w ci cf) = .error e) :
    revisionLoop writer editor sectionPlan ci (fuel + 1) iterations cc cf wu eu tr =
      { result := .error e, isApproved := false, iterations := iterations + 1,
        writerUsages := wu ++ [w.usage], editorUsages := eu,
        iterTrace := tr ++ [iterations + 1] } := by
  simp [revisionLoop, hw, he]

/-- A section whose very first writer call fails delivers that error as its
task outcome. -/
theorem runSection_writer_error (writer : WriterInput → Except AgentError WriterOutput)
    (editor : EditorInput → Except AgentError EditorOutput)
    (ci : Option String) (sectionPlan : SectionPlan) (e : AgentError)
    (hw : writer (writerCallInput sectionPlan ci none) = .error e) :
    sectionOutcome sectionPlan (runSection writer editor ci sectionPlan) = .error e := by
  have h : runSection writer editor ci sectionPlan =
      { result := .error e, isApproved := false, iterations := 1,
        writerUsages := [], editorUsages := [], iterTrace := [1] } :=
    revisionLoop_writer_error writer editor sectionPlan ci 2 0 none none [] [] [] e hw
  rw [h]
  simp [sectionOutcome]

/-- A section whose first editor call fails delivers that error as its task
outcome. -/
theorem runSection_editor_error (writer : WriterInput → Except AgentError WriterOutput)
    (editor : EditorInput → Except AgentError EditorOutput)
    (ci : Option String) (sectionPlan : SectionPlan) (w : WriterOutput) (e : AgentError)
    (hw : writer (writerCallInput sectionPlan ci none) = .ok w)
    (he : editor (editorCallInput w ci none) = .error e) :
    sectionOutcome sectionPlan (runSection writer editor ci sectionPlan) = .error e := by
  have h : runSection writer editor ci sectionPlan =
      { result := .error e, isApproved := false, iterations := 1,
        writerUsages := [w.usage], editorUsages := [], iterTrace := [1] } :=
    revisionLoop_editor_error writer editor sectionPlan ci 2 0 none none [] [] [] w e hw he
  rw [h]
  simp [sectionOutcome]

/-- If every section before position `j` succeeds and section `j`\'s task
fails with `e`, the `Promise.all` join fails with exactly `e` (with a single
failing call this is the run\'s first and only error). -/
theorem joinSectionRuns_first_error (writer : WriterInput → Except AgentError WriterOutput)
    (editor : EditorInput → Except AgentError EditorOutput) (ci : Option String) :
    ∀ (pre : List SectionPlan) (p : SectionPlan) (post : List SectionPlan) (e : AgentError),
      (∀ q ∈ pre, ∃ c, sectionOutcome q (runSection writer editor ci q) = .ok c) →
      sectionOutcome p (runSection writer editor ci p) = .error e →
      joinSectionRuns (pre ++ p :: post)
        ((pre ++ p :: post).map (runSection writer editor ci)) = .error e := by
  intro pre
  induction pre with
  | nil =>
    intro p post e _ herr
    simp [joinSectionRuns, herr]
  | cons q pre ih =>
    intro p post e hpre herr
    obtain ⟨c, hc⟩ := hpre q (by simp)
    have hrest := ih p post e (fun x hx => hpre x (by simp [hx])) herr
    simp only [List.cons_append, List.map_cons, joinSectionRuns, hc]
    have hrest2 : joinSectionRuns (pre.append (p :: post))
        (List.map (runSection writer editor ci) (pre.append (p :: post))) =
        Except.error e := hrest
    simp only [hrest2]

/-- C5: a failing generation call at ANY stage unwinds the whole pipeline
with exactly that error, and no document value exists: (1) a failing
outline call; (2) any failure inside the Strategy fold; (3) any failure of
the section fan-out join; (4) a failing writer call on the first failing
section; (5) a failing editor call on the first failing section; (6) a
failing final-review call; and in particular (7) Scenario C — a strategist
failure on the fold\'s second section of a two-section outline, after the
first section\'s plan was already produced.  (With a single failing call the
propagated error is the run\'s first error; the `Except` result carries no
partial document.) -/
theorem claim_C5_error_propagation (agents : Agents) (input : ArticleInput) :
    (∀ e : AgentError,
      agents.outliner
        { subject := input.subject, customInstructions := input.customInstructions } =
        .error e →
      writeArticle agents input = .error e) ∧
    (∀ (o : ArticleOutline) (uo : AgentUsage) (e : AgentError),
      agents.outliner
        { subject := input.subject, customInstructions := input.customInstructions } =
        .ok { outline := o, usage := uo } →
      strategyFold agents.contentStrategist o input.customInstructions o.sections [] =
        .error e →
      writeArticle agents input = .error e) ∧
    (∀ (o : ArticleOutline) (uo : AgentUsage) (r : StrategyFoldResult) (e : AgentError),
      agents.outliner
        { subject := input.subject, customInstructions := input.customInstructions } =
        .ok { outline := o, usage := uo } →
      strategyFold agents.contentStrategist o input.customInstructions o.sections [] =
        .ok r →
      joinSectionRuns r.plans
        (r.plans.map (runSection agents.writer agents.editor input.customInstructions)) =
        .error e →
      writeArticle agents input = .error e) ∧
    (∀ (o : ArticleOutline) (uo : AgentUsage) (r : StrategyFoldResult)
       (pre : List SectionPlan) (p : SectionPlan) (post : List SectionPlan) (e : AgentError),
      agents.outliner
        { subject := input.subject, customInstructions := input.customInstructions } =
        .ok { outline := o, usage := uo } →
      strategyFold agents.contentStrategist o input.customInstructions o.sections [] =
        .ok r →
      r.plans = pre ++ p :: post →
      (∀ q ∈ pre, ∃ c,
        sectionOutcome q (runSection agents.writer agents.editor input.customInstructions q) =
          .ok c) →
      agents.writer (writerCallInput p input.customInstructions none) = .error e →
      writeArticle agents input = .error e) ∧
    (∀ (o : ArticleOutline) (uo : AgentUsage) (r : StrategyFoldResult)
       (pre : List SectionPlan) (p : SectionPlan) (post : List SectionPlan)
       (w : WriterOutput) (e : AgentError),
      agents.outliner
        { subject := input.subject, customInstructions := input.customInstructions } =
        .ok { outline := o, usage := uo } →
      strategyFold agents.contentStrategist o input.customInstructions o.sections [] =
        .ok r →
      r.plans = pre ++ p :: post →
      (∀ q ∈ pre, ∃ c,
        sectionOutcome q (runSection agents.writer agents.editor input.customInstructions q) =
          .ok c) →
      agents.writer (writerCallInput p input.customInstructions none) = .ok w →
      agents.editor (editorCallInput w input.customInstructions none) = .error e →
      writeArticle agents input = .error e) ∧
    (∀ (o : ArticleOutline) (uo : AgentUsage) (r : StrategyFoldResult)
       (cs : List SectionContent) (e : AgentError),
      agents.outliner
        { subject := input.subject, customInstructions := input.customInstructions } =
        .ok { outline := o, usage := uo } →
      strategyFold agents.contentStrategist o input.customInstructions o.sections [] =
        .ok r →
      joinSectionRuns r.plans
        (r.plans.map (runSection agents.writer agents.editor input.customInstructions)) =
        .ok cs →
      agents.editorInChief
        { userInput := input,
          writerOutput := { outline := o, contentStrategy := r.plans, sections := cs } } =
        .error e →
      writeArticle agents input = .error e) ∧
    (∀ (o : ArticleOutline) (uo : AgentUsage) (s0 s1 : OutlineSection)
       (p0 : SectionPlan) (u0 : AgentUsage) (e : AgentError),
      agents.outliner
        { subject := input.subject, customInstructions := input.customInstructions } =
        .ok { outline := o, usage := uo } →
      o.sections = [s0, s1] →
      agents.contentStrategist
        { outline := o, sec := s0, customInstructions := input.customInstructions,
          previousStrategies := [] } = .ok { plan := p0, usage := u0 } →
      agents.contentStrategist
        { outline := o, sec := s1, customInstructions := input.customInstructions,
          previousStrategies := [p0] } = .error e →
      writeArticle agents input = .error e) := by
  refine ⟨?_, ?_, ?_, ?_, ?_, ?_, ?_⟩
  · intro e h
    simp [writeArticle, h]
  · intro o uo e h1 h2
    simp [writeArticle, h1, h2]
  · intro o uo r e h1 h2 h3
    simp [writeArticle, h1, h2, h3]
  · intro o uo r pre p post e h1 h2 hplans hpre hw
    have hjoin : joinSectionRuns r.plans
        (r.plans.map (runSection agents.writer agents.editor input.customInstructions)) =
        .error e := by
      rw [hplans]
      exact joinSectionRuns_first_error agents.writer agents.editor
        input.customInstructions pre p post e hpre
        (runSection_writer_error agents.writer agents.editor
          input.customInstructions p e hw)
    simp [writeArticle, h1, h2, hjoin]
  · intro o uo r pre p post w e h1 h2 hplans hpre hw he
    have hjoin : joinSectionRuns r.plans
        (r.plans.map (runSection agents.writer agents.editor input.customInstructions)) =
        .error e := by
      rw [hplans]
      exact joinSectionRuns_first_error agents.writer agents.editor
        input.customInstructions pre p post e hpre
        (runSection_editor_error agents.writer agents.editor
          input.customInstructions p w e hw he)
    simp [writeArticle, h1, h2, hjoin]
  · intro o uo r cs e h1 h2 h3 h4
    simp [writeArticle, h1, h2, h3, h4]
  · intro o uo s0 s1 p0 u0 e houtline hsections hs0 hs1
    simp [writeArticle, houtline, hsections, strategyFold, hs0, hs1]

/-- Witness for C5: the stub agents whose strategist fails on its second
call (Scenario C, conjunct 7) make the whole pipeline return exactly that
provider error. -/
theorem claim_C5_witness :
    writeArticle agentsC5 inputC3 = .error (.providerError "rate limit") :=
  (claim_C5_error_propagation agentsC5 inputC3).2.2.2.2.2.2 outlineC3 usage0
    { heading := "A", level := 2, subSections := none }
    { heading := "B", level := 2, subSections := none }
    { heading := "A", keyPoints := [], references := none } usage0
    (.providerError "rate limit") rfl rfl rfl rfl

/-- Invariant of the Phase 2 fold, for any accumulator: on success, the
final plan list extends the accumulator by one plan per remaining section,
the recorded calls are exactly `callsFrom` (call `k` carries the first
`k` plans as `previousStrategies`), and each call produced the plan and
usage at its position. -/
theorem strategyFold_spec
    (contentStrategist : ContentStrategistInput → Except AgentError ContentStrategistOutput)
    (o : ArticleOutline) (ci : Option String) :
    ∀ (sections : List OutlineSection) (acc : List SectionPlan) (r : StrategyFoldResult),
      strategyFold contentStrategist o ci sections acc = .ok r →
      r.plans.length = acc.length + sections.length ∧
      r.plans.take acc.length = acc ∧
      r.calls = callsFrom o ci r.plans acc.length sections ∧
      producesPlans contentStrategist r.calls (r.plans.drop acc.length) r.usages := by
  intro sections
  induction sections with
  | nil =>
    intro acc r h
    simp only [strategyFold] at h
    injection h with h
    subst h
    simp [callsFrom, producesPlans, List.take_length, List.drop_length]
  | cons s rest ih =>
    intro acc r h
    simp only [strategyFold] at h
    split at h
    · cases h
    · rename_i res hcall
      split at h
      · cases h
      · rename_i r' hrec
        injection h with h
        subst h
        obtain ⟨h1, h2, h3, h4⟩ := ih (acc ++ [res.plan]) r' hrec
        simp only [List.length_append, List.length_singleton] at h1 h2 h3 h4
        have htake : r'.plans.take acc.length = acc := by
          have hmin : r'.plans.take acc.length = (r'.plans.take (acc.length + 1)).take acc.length := by
            rw [List.take_take]
            congr 1
            omega
          rw [hmin, h2]
          exact List.take_left acc [res.plan]
        have hdrop : r'.plans.drop acc.length = res.plan :: r'.plans.drop (acc.length + 1) := by
          conv_lhs => rw [← List.take_append_drop (acc.length + 1) r'.plans]
          rw [h2, List.append_assoc, List.drop_left]
          rfl
    
        refine ⟨by simp; omega, htake, ?_, ?_⟩
        · simp only [callsFrom, htake, h3]
        · rw [hdrop]
          exact ⟨hcall, h4⟩

/-- C6: the Strategy phase is a sequential left fold — when it succeeds it
produces one plan per section, the `k`-th strategist call receives the
outline, the `k`-th section and exactly the plans produced for sections
`0 … k-1` (`r.plans.take k`) as its `previousStrategies` (hence never a
later plan), and the `k`-th plan and usage are the output of that call. -/
theorem claim_C6_strategy_left_fold
    (contentStrategist : ContentStrategistInput → Except AgentError ContentStrategistOutput)
    (o : ArticleOutline) (ci : Option String) (r : StrategyFoldResult)
    (h : strategyFold contentStrategist o ci o.sections [] = .ok r) :
    r.plans.length = o.sections.length ∧
    r.calls = callsFrom o ci r.plans 0 o.sections ∧
    producesPlans contentStrategist r.calls r.plans r.usages := by
  obtain ⟨h1, _h2, h3, h4⟩ := strategyFold_spec contentStrategist o ci o.sections [] r h
  refine ⟨by simpa using h1, by simpa using h3, ?_⟩
  simpa using h4

/-- Witness for C6: the stub strategist over the two-section outline
satisfies the fold characterisation. -/
theorem claim_C6_witness :
    strategyFold strategistStub outlineC3 none outlineC3.sections [] = .ok stratFoldResultW ∧
    (stratFoldResultW.plans.length = outlineC3.sections.length ∧
     stratFoldResultW.calls = callsFrom outlineC3 none stratFoldResultW.plans 0 outlineC3.sections ∧
     producesPlans strategistStub stratFoldResultW.calls stratFoldResultW.plans
       stratFoldResultW.usages) :=
  ⟨rfl, claim_C6_strategy_left_fold strategistStub outlineC3 none stratFoldResultW rfl⟩

/-- On success, the `Promise.all` join returns one content per plan, and the
content at position `i` is the outcome of the revision loop run on plan
`i`. -/
theorem joinSectionRuns_spec (writer : WriterInput → Except AgentError WriterOutput)
    (editor : EditorInput → Except AgentError EditorOutput) (ci : Option String) :
    ∀ (plans : List SectionPlan) (cs : List SectionContent),
      joinSectionRuns plans (plans.map (runSection writer editor ci)) = .ok cs →
      cs.length = plans.length ∧
      ∀ (i : Nat) (hi : i < plans.length) (hi' : i < cs.length),
        sectionOutcome (plans.get ⟨i, hi⟩) (runSection writer editor ci (plans.get ⟨i, hi⟩)) =
          .ok (cs.get ⟨i, hi'⟩) := by
  intro plans
  induction plans with
  | nil =>
    intro cs h
    simp only [List.map_nil, joinSectionRuns] at h
    injection h with h
    subst h
    refine ⟨rfl, ?_⟩
    intro i hi hi'
    simp at hi
  | cons p ps ih =>
    intro cs h
    simp only [List.map_cons, joinSectionRuns] at h
    split at h
    · cases h
    · rename_i c hout
      split at h
      · cases h
      · rename_i cs' hrest
        injection h with h
        subst h
        obtain ⟨hlen, hidx⟩ := ih cs' hrest
        refine ⟨by simp [hlen], ?_⟩
        intro i hi hi'
        match i with
        | 0 => simpa using hout
        | Nat.succ j =>
          have hj : j < ps.length := by simpa using hi
          have hj' : j < cs'.length := by simpa using hi'
          simpa using hidx j hj hj'

/-- Every element of the Phase 3 task list indexed from `k` is the task
`(k + i, revision loop on plan i)` for some position `i`. -/
theorem sectionTasksFrom_mem (writer : WriterInput → Except AgentError WriterOutput)
    (editor : EditorInput → Except AgentError EditorOutput) (ci : Option String) :
    ∀ (plans : List SectionPlan) (k : Nat) (a : Nat × SectionRun),
      a ∈ sectionTasksFrom writer editor ci k plans →
      ∃ (i : Nat) (hi : i < plans.length),
        a = (k + i, runSection writer editor ci (plans.get ⟨i, hi⟩)) := by
  intro plans
  induction plans with
  | nil => intro k a ha; simp [sectionTasksFrom] at ha
  | cons p ps ih =>
    intro k a ha
    simp only [sectionTasksFrom, List.mem_cons] at ha
    rcases ha with ha | ha
    · exact ⟨0, by simp, by simpa using ha⟩
    · obtain ⟨i, hi, hai⟩ := ih (k + 1) a ha
      refine ⟨i + 1, by simpa using hi, ?_⟩
      rw [hai]
      have : k + 1 + i = k + (i + 1) := by omega
      simp [this]

/-- Conversely, each task `(k + i, revision loop on plan i)` is in the task
list. -/
theorem sectionTasksFrom_mem_of_lt (writer : WriterInput → Except AgentError WriterOutput)
    (editor : EditorInput → Except AgentError EditorOutput) (ci : Option String) :
    ∀ (plans : List SectionPlan) (k i : Nat) (hi : i < plans.length),
      (k + i, runSection writer editor ci (plans.get ⟨i, hi⟩)) ∈
        sectionTasksFrom writer editor ci k plans := by
  intro plans
  induction plans with
  | nil => intro k i hi; simp at hi
  | cons p ps ih =>
    intro k i hi
    match i with
    | 0 => simp [sectionTasksFrom]
    | Nat.succ j =>
      have hj : j < ps.length := by simpa using hi
      have := ih (k + 1) j hj
      have hkj : k + 1 + j = k + (j + 1) := by omega
      rw [hkj] at this
      simp only [sectionTasksFrom, List.mem_cons]
      right
      simpa using this

/-- In any completion-order permutation of the Phase 3 task list, looking up
task index `i` finds exactly the run of plan `i`: the task indices `0 … n-1`
are pairwise distinct, so `find?` cannot confuse tasks. -/
theorem find_in_completed (writer : WriterInput → Except AgentError WriterOutput)
    (editor : EditorInput → Except AgentError EditorOutput) (ci : Option String)
    (plans : List SectionPlan) (completed : List (Nat × SectionRun))
    (hperm : completed.Perm (sectionTasks writer editor ci plans))
    (i : Nat) (hi : i < plans.length) :
    completed.find? (fun task => task.1 == i) =
      some (i, runSection writer editor ci (plans.get ⟨i, hi⟩)) := by
  have hmem : (i, runSection writer editor ci (plans.get ⟨i, hi⟩)) ∈
      sectionTasks writer editor ci plans := by
    have := sectionTasksFrom_mem_of_lt writer editor ci plans 0 i hi
    simpa [sectionTasks] using this
  have hmem' : (i, runSection writer editor ci (plans.get ⟨i, hi⟩)) ∈ completed :=
    hperm.mem_iff.mpr hmem
  have hsome : (completed.find? (fun task => task.1 == i)).isSome :=
    List.find?_isSome.mpr ⟨_, hmem', by simp⟩
  obtain ⟨a, ha⟩ := Option.isSome_iff_exists.mp hsome
  have hpa := List.find?_some ha
  have ha1 : a.1 = i := by simpa using hpa
  have hmema : a ∈ sectionTasks writer editor ci plans :=
    hperm.mem_iff.mp (List.mem_of_find?_eq_some ha)
  obtain ⟨j, hj, haj⟩ := sectionTasksFrom_mem writer editor ci plans 0 a hmema
  have hji : j = i := by
    have : a.1 = 0 + j := by rw [haj]
    omega
  subst hji
  rw [ha, haj]
  simp

/-- If looking up each of the indices `k, …, k + |xs| - 1` in the completed
task list yields the corresponding element of `xs`, the index-directed
reassembly returns exactly `xs`. -/
theorem joinFrom_of_find (completed : List (Nat × SectionRun)) :
    ∀ (xs : List SectionRun) (k : Nat),
      (∀ (i : Nat) (hi : i < xs.length),
        completed.find? (fun task => task.1 == k + i) = some (k + i, xs.get ⟨i, hi⟩)) →
      joinFrom completed k xs.length = some xs := by
  intro xs
  induction xs with
  | nil => intro k _; rfl
  | cons x xs ih =>
    intro k h
    have h0 := h 0 (by simp)
    simp only [Nat.add_zero] at h0
    have hrest : joinFrom completed (k + 1) xs.length = some xs := by
      apply ih
      intro i hi
      have := h (i + 1) (by simpa using hi)
      have hki : k + (i + 1) = k + 1 + i := by omega
      rw [hki] at this
      simpa using this
    simp only [List.length_cons, joinFrom, h0, hrest, Option.map_some]
    rfl

/-- C1: when every per-section task of the fan-out succeeds, the fan-in
returns exactly one `SectionContent` per plan; the `i`-th content is the
outcome of the revision loop run on the `i`-th plan; and reassembling any
completion-order permutation of the `(index, run)` tasks by index yields
the runs in original plan order — output order equals plan order regardless
of completion order. -/
theorem claim_C1_fan_out_fan_in (writer : WriterInput → Except AgentError WriterOutput)
    (editor : EditorInput → Except AgentError EditorOutput) (ci : Option String)
    (plans : List SectionPlan) (cs : List SectionContent)
    (_hN : 1 ≤ plans.length)
    (h : joinSectionRuns plans (plans.map (runSection writer editor ci)) = .ok cs) :
    cs.length = plans.length ∧
    (∀ (i : Nat) (hi : i < plans.length) (hi' : i < cs.length),
      sectionOutcome (plans.get ⟨i, hi⟩) (runSection writer editor ci (plans.get ⟨i, hi⟩)) =
        .ok (cs.get ⟨i, hi'⟩)) ∧
    (∀ completed : List (Nat × SectionRun),
      completed.Perm (sectionTasks writer editor ci plans) →
      joinByIndex completed plans.length = some (plans.map (runSection writer editor ci))) := by
  obtain ⟨hlen, hidx⟩ := joinSectionRuns_spec writer editor ci plans cs h
  refine ⟨hlen, hidx, ?_⟩
  intro completed hperm
  have hlenmap : plans.length = (plans.map (runSection writer editor ci)).length := by simp
  rw [joinByIndex, hlenmap]
  apply joinFrom_of_find
  intro i hi
  have hi0 : i < plans.length := by simpa using hi
  have := find_in_completed writer editor ci plans completed hperm i hi0
  simp only [Nat.zero_add] at this ⊢
  rw [this]
  have hmap : (plans.map (runSection writer editor ci)).get ⟨i, hi⟩ =
      runSection writer editor ci (plans.get ⟨i, hi0⟩) := by
    simp [List.get_eq_getElem, List.getElem_map]
  rw [hmap]

/-- Witness for C1: two plans, an approving stub editor; the fan-in returns
the two contents in plan order, and reassembling the two tasks from a
completion order that finished section 1 first still yields plan order. -/
theorem claim_C1_witness :
    (1 ≤ [plan0, plan1].length ∧
     joinSectionRuns [plan0, plan1]
       ([plan0, plan1].map (runSection writerStub editorApproveStub none)) =
       .ok [{ heading := "Intro", content := "draft", references := none },
            { heading := "Body", content := "draft", references := none }]) ∧
    joinByIndex
      [(1, runSection writerStub editorApproveStub none plan1),
       (0, runSection writerStub editorApproveStub none plan0)] 2 =
      some ([plan0, plan1].map (runSection writerStub editorApproveStub none)) :=
  ⟨⟨by decide, rfl⟩,
   (claim_C1_fan_out_fan_in writerStub editorApproveStub none [plan0, plan1] _
      (by decide) rfl).2.2
     [(1, runSection writerStub editorApproveStub none plan1),
      (0, runSection writerStub editorApproveStub none plan0)] (by decide)⟩

/-- Summing one rational per element via a `foldl` accumulator equals the
initial value plus the map-sum. -/
theorem foldl_add_sum (f : α → ℚ) :
    ∀ (l : List α) (init : ℚ),
      l.foldl (fun total u => total + f u) init = init + (l.map f).sum := by
  intro l
  induction l with
  | nil => intro init; simp
  | cons a l ih =>
    intro init
    simp only [List.foldl_cons, List.map_cons, List.sum_cons, ih]
    ring

/-- `calculateResearcherCost` equals the plain sum of the nested usages'
`gpt-4o-mini` costs (the empty-list guard changes nothing). -/
theorem calculateResearcherCost_eq (r : Option (List LanguageModelUsage)) :
    calculateResearcherCost r =
      ((r.getD []).map (fun u => calculateModelCost u .gpt_4o_mini)).sum := by
  cases r with
  | none => simp [calculateResearcherCost]
  | some l =>
    cases l with
    | nil => simp [calculateResearcherCost]
    | cons u us =>
      simp only [calculateResearcherCost, Option.getD_some]
      rw [if_neg (by simp)]
      rw [foldl_add_sum (fun u => calculateModelCost u .gpt_4o_mini) (u :: us) 0]
      simp

/-- The per-role accumulation loop of `calculateUsage`, fully characterised:
starting from any accumulator, it adds the map-sum of self costs to the
`selfCost` field and the map-sum of nested researcher costs to the
`researcherCost` field. -/
theorem roleAgentCosts_foldl (model : Model) :
    ∀ (us : List AgentUsage) (init : AgentCosts),
      us.foldl
        (fun costs agentUsage =>
          { selfCost := costs.selfCost +
              (match agentUsage.agentUsage with
               | some u => calculateModelCost u model
               | none => 0),
            researcherCost := costs.researcherCost +
              calculateResearcherCost agentUsage.researcherUsages })
        init =
      { selfCost := init.selfCost + (us.map (selfRecordCost model)).sum,
        researcherCost := init.researcherCost + (us.map researchRecordCost).sum } := by
  intro us
  induction us with
  | nil => intro init; simp
  | cons a us ih =>
    intro init
    simp only [List.foldl_cons, List.map_cons, List.sum_cons, ih]
    congr 1
    · simp only [selfRecordCost]
      ring
    · rw [calculateResearcherCost_eq, researchRecordCost]
      ring

/-- The role totals of `roleAgentCosts` are the two map-sums. -/
theorem roleAgentCosts_eq (model : Model) (us : List AgentUsage) :
    roleAgentCosts model us =
      { selfCost := (us.map (selfRecordCost model)).sum,
        researcherCost := (us.map researchRecordCost).sum } := by
  rw [roleAgentCosts, roleAgentCosts_foldl model us]
  simp

/-- Map-sums distribute over pointwise addition. -/
theorem sum_map_add_q (f g : α → ℚ) (l : List α) :
    (l.map (fun a => f a + g a)).sum = (l.map f).sum + (l.map g).sum := by
  induction l with
  | nil => simp
  | cons a l ih => simp [ih]; ring

/-- C7: for every ledger, `total.agentCosts` is exactly the sum over all
records of the self usage priced at the record's role model (o1 for
OUTLINER and EDITOR_IN_CHIEF, gpt-4o otherwise), `total.researchCosts` is
exactly the sum over all records of the nested researcher usages priced at
gpt-4o-mini, and their sum counts each record's self usage and each nested
usage exactly once — no usage amount appears in both totals. -/
theorem claim_C7_no_double_counting (ledger : UsageLedger) :
    (calculateUsage ledger).totalAgentCosts =
      (ledger.OUTLINER.map (selfRecordCost .o1)).sum +
      (ledger.CONTENT_STRATEGIST.map (selfRecordCost .gpt_4o)).sum +
      (ledger.WRITER.map (selfRecordCost .gpt_4o)).sum +
      (ledger.EDITOR.map (selfRecordCost .gpt_4o)).sum +
      (ledger.EDITOR_IN_CHIEF.map (selfRecordCost .o1)).sum ∧
    (calculateUsage ledger).totalResearchCosts =
      (ledger.OUTLINER.map researchRecordCost).sum +
      (ledger.CONTENT_STRATEGIST.map researchRecordCost).sum +
      (ledger.WRITER.map researchRecordCost).sum +
      (ledger.EDITOR.map researchRecordCost).sum +
      (ledger.EDITOR_IN_CHIEF.map researchRecordCost).sum ∧
    (calculateUsage ledger).totalAgentCosts + (calculateUsage ledger).totalResearchCosts =
      (ledger.OUTLINER.map (fun a => selfRecordCost .o1 a + researchRecordCost a)).sum +
      (ledger.CONTENT_STRATEGIST.map (fun a => selfRecordCost .gpt_4o a + researchRecordCost a)).sum +
      (ledger.WRITER.map (fun a => selfRecordCost .gpt_4o a + researchRecordCost a)).sum +
      (ledger.EDITOR.map (fun a => selfRecordCost .gpt_4o a + researchRecordCost a)).sum +
      (ledger.EDITOR_IN_CHIEF.map (fun a => selfRecordCost .o1 a + researchRecordCost a)).sum := by
  have hself : ∀ (model : Model) (us : List AgentUsage),
      (roleAgentCosts model us).selfCost = (us.map (selfRecordCost model)).sum := by
    intro model us; rw [roleAgentCosts_eq]
  have hres : ∀ (model : Model) (us : List AgentUsage),
      (roleAgentCosts model us).researcherCost = (us.map researchRecordCost).sum := by
    intro model us; rw [roleAgentCosts_eq]
  refine ⟨?_, ?_, ?_⟩
  · simp [calculateUsage, hself]
  · simp [calculateUsage, hres]
  · simp only [calculateUsage, hself, hres, sum_map_add_q]
    ring

/-- When the pattern does not occur, `String.replace` returns the string
unchanged (whatever the replacement text is). -/
theorem jsReplace_no_occurrence (s pat rep : String) (h : occursIn s pat = false) :
    jsReplace s pat rep = s := by
  cases hf : firstOccur s.data pat.data with
  | none => simp [jsReplace, hf]
  | some i => simp [occursIn, hf] at h

/-- C8 core: if every edit targeting `heading` has an `originalText` that
does not occur in `content`, the whole edit loop is the identity on
`content`. -/
theorem applyEditsToSection_miss :
    ∀ (edits : List ProposedEdit) (heading content : String),
      (∀ e ∈ edits, e.sectionHeading = heading → occursIn content e.originalText = false) →
      applyEditsToSection edits heading content = content := by
  intro edits
  induction edits with
  | nil => intro heading content _; rfl
  | cons e rest ih =>
    intro heading content h
    have hstep : (if e.sectionHeading == heading then
        jsReplace content e.originalText e.newText else content) = content := by
      by_cases heq : e.sectionHeading = heading
      · rw [if_pos (by simpa using heq)]
        exact jsReplace_no_occurrence content e.originalText e.newText
          (h e (by simp) heq)
      · rw [if_neg (by simpa using heq)]
    simp only [applyEditsToSection, List.foldl_cons] at ih ⊢
    rw [hstep]
    exact ih heading content (fun x hx hxh => h x (by simp [hx]) hxh)

/-- C8: a `ProposedEdit` whose `sectionHeading` matches a section but whose
`originalText` does not occur in the section's body leaves that body
byte-identical; in particular a section all of whose matching edits miss is
rendered with its pre-edit body, and no error is raised (the edit loop is a
total function). -/
theorem claim_C8_missing_original_text_is_noop (s : SectionContent)
    (edits : List ProposedEdit)
    (h : ∀ e ∈ edits, e.sectionHeading = s.heading → occursIn s.content e.originalText = false) :
    applyEditsToSection edits s.heading s.content = s.content :=
  applyEditsToSection_miss edits s.heading s.content h

/-- Witness for C8 (Scenario B): an edit targeting `Intro` with
`originalText = "foo"` absent from the body leaves the body unchanged. -/
theorem claim_C8_witness :
    applyEditsToSection
      [{ sectionHeading := "Intro", originalText := "foo", feedback := "f",
         newText := "bar", priority := .HIGH }]
      "Intro" "body text" = "body text" :=
  claim_C8_missing_original_text_is_noop
    { heading := "Intro", content := "body text", references := none }
    [{ sectionHeading := "Intro", originalText := "foo", feedback := "f",
       newText := "bar", priority := .HIGH }]
    (by decide)

/-- Where `firstOccur` points, the pattern really occurs. -/
theorem firstOccur_leadsWith :
    ∀ (l pat : List Char) (i : Nat), firstOccur l pat = some i →
      leadsWith pat (l.drop i) = true := by
  intro l
  induction l with
  | nil =>
    intro pat i h
    simp only [firstOccur] at h
    split at h
    · rename_i hcond
      injection h with h
      subst h
      simpa using hcond
    · cases h
  | cons c rest ih =>
    intro pat i h
    simp only [firstOccur] at h
    split at h
    · rename_i hcond
      injection h with h
      subst h
      simpa using hcond
    · cases hf : firstOccur rest pat with
      | none => rw [hf] at h; cases h
      | some j =>
        rw [hf] at h
        simp only [Option.map_some'] at h
        injection h with h
        subst h
        simpa using ih pat j hf

/-- `firstOccur` points at the FIRST occurrence: the pattern occurs at no
earlier position. -/
theorem firstOccur_min :
    ∀ (l pat : List Char) (i : Nat), firstOccur l pat = some i →
      ∀ j, j < i → leadsWith pat (l.drop j) = false := by
  intro l
  induction l with
  | nil =>
    intro pat i h j hj
    simp only [firstOccur] at h
    split at h
    · injection h with h; omega
    · cases h
  | cons c rest ih =>
    intro pat i h j hj
    simp only [firstOccur] at h
    split at h
    · injection h with h; omega
    · rename_i hcond
      cases hf : firstOccur rest pat with
      | none => rw [hf] at h; cases h
      | some j' =>
        rw [hf] at h
        simp only [Option.map_some'] at h
        injection h with h
        subst h
        match j with
        | 0 => simpa using hcond
        | Nat.succ k =>
          have hk : k < j' := by omega
          simpa using ih pat j' hf k hk

/-- A replacement text with no dollar sign expands to itself. -/
theorem getSubst_no_dollar (m b a : List Char) :
    ∀ (rep : List Char), (∀ c ∈ rep, c ≠ '$') → getSubst m b a rep = rep
  | [], _ => rfl
  | [c], _ => rfl
  | c :: c₂ :: rest, h => by
    have hc : c ≠ '$' := h c (by simp)
    have hbeq : (c == '$') = false := by simpa using hc
    simp only [getSubst, hbeq, Bool.false_eq_true, if_false]
    rw [getSubst_no_dollar m b a (c₂ :: rest) (fun x hx => h x (by simp [hx]))]

/-- C9 counterexample: `newText` is NOT always inserted verbatim — on the
body `"ab"`, replacing `"b"` by the newText `"$$"` yields `"a$"` (ECMAScript
`GetSubstitution` collapses `$$` to `$`), not the verbatim `"a$$"`. -/
theorem claim_C9_counterexample :
    applyEditsToSection
      [{ sectionHeading := "H", originalText := "b", feedback := "f", newText := "$$",
         priority := .HIGH }] "H" "ab" = "a$" ∧
    verbatimReplaceFirst "ab" "b" "$$" = "a$$" ∧
    applyEditsToSection
      [{ sectionHeading := "H", originalText := "b", feedback := "f", newText := "$$",
         priority := .HIGH }] "H" "ab" ≠ verbatimReplaceFirst "ab" "b" "$$" := by
  refine ⟨by decide, by decide, by decide⟩

/-- C9 (amended): a matching edit whose `originalText` occurs replaces
exactly the first occurrence (no earlier position matches), inserting the
ECMAScript `GetSubstitution` expansion of `newText` (`$$`, `$&`, `$`+back
quote, `$`+quote interpreted); whenever `newText` contains no dollar sign,
this is verbatim first-occurrence replacement. -/
theorem claim_C9_first_occurrence_replacement
    (ed : ProposedEdit) (heading content : String) (i : Nat)
    (hmatch : ed.sectionHeading = heading)
    (hocc : firstOccur content.data ed.originalText.data = some i) :
    applyEditsToSection [ed] heading content =
      ⟨content.data.take i ++
        getSubst ed.originalText.data (content.data.take i)
          (content.data.drop (i + ed.originalText.data.length)) ed.newText.data ++
        content.data.drop (i + ed.originalText.data.length)⟩ ∧
    leadsWith ed.originalText.data (content.data.drop i) = true ∧
    (∀ j, j < i → leadsWith ed.originalText.data (content.data.drop j) = false) ∧
    ((∀ c ∈ ed.newText.data, c ≠ '$') →
      applyEditsToSection [ed] heading content =
        verbatimReplaceFirst content ed.originalText ed.newText) := by
  have happ : applyEditsToSection [ed] heading content =
      jsReplace content ed.originalText ed.newText := by
    simp [applyEditsToSection, hmatch]
  have hjs : jsReplace content ed.originalText ed.newText =
      ⟨content.data.take i ++
        getSubst ed.originalText.data (content.data.take i)
          (content.data.drop (i + ed.originalText.data.length)) ed.newText.data ++
        content.data.drop (i + ed.originalText.data.length)⟩ := by
    simp [jsReplace, hocc]
  refine ⟨happ.trans hjs,
    firstOccur_leadsWith content.data ed.originalText.data i hocc,
    firstOccur_min content.data ed.originalText.data i hocc, ?_⟩
  intro hnd
  rw [happ.trans hjs, verbatimReplaceFirst, hocc,
    getSubst_no_dollar ed.originalText.data (content.data.take i)
      (content.data.drop (i + ed.originalText.data.length)) ed.newText.data hnd]

/-- Witness for C9: the dollar-free edit `b → X` on `"abc"` is verbatim
first-occurrence replacement. -/
theorem claim_C9_witness :
    applyEditsToSection [edW] "H" "abc" = verbatimReplaceFirst "abc" "b" "X" :=
  (claim_C9_first_occurrence_replacement edW "H" "abc" 1 rfl (by decide)).2.2.2 (by decide)

/-- Left-appending fold of rendered pieces equals the initial string
followed by their concatenation. -/
theorem foldl_append_stringConcat (f : α → String) :
    ∀ (l : List α) (init : String),
      l.foldl (fun markdown x => markdown ++ f x) init = init ++ stringConcat (l.map f) := by
  intro l
  induction l with
  | nil => intro init; simp [stringConcat, String.append_empty]
  | cons a l ih =>
    intro init
    simp only [List.foldl_cons, List.map_cons, stringConcat, ih]
    rw [String.append_assoc]

/-- C10 counterexample: with non-empty `globalFeedback` the rendered
document is NOT exactly title-then-sections — an `## Editorial Notes` block
follows. -/
theorem claim_C10_counterexample :
    applyEditsAndGenerateMarkdown
      { title := "T", sections := [{ heading := "A", content := "body", references := none }],
        proposedEdits := [], globalFeedback := ["note"] } ≠
    claimedRenderC10
      { title := "T", sections := [{ heading := "A", content := "body", references := none }],
        proposedEdits := [], globalFeedback := ["note"] } := by
  decide

/-- C10 (amended): for every input the rendered document is exactly
`# title` followed by, for each section in order, `## heading` and its
edited body — all sections at markdown level 2 — followed only by the
optional `## Editorial Notes` and `## References` blocks.  The renderer
consumes nothing but section headings, bodies and references, so the
outline's `level` and `subSections` fields cannot influence the output. -/
theorem claim_C10_flat_level2_rendering (params : RenderParams) :
    applyEditsAndGenerateMarkdown params =
      claimedRenderC10 params ++ editorialNotesBlock params.globalFeedback ++
        referencesBlock params.sections := by
  rcases params with ⟨title, sections, proposedEdits, globalFeedback⟩
  simp only [applyEditsAndGenerateMarkdown, claimedRenderC10, editorialNotesBlock,
    referencesBlock]
  rw [foldl_append_stringConcat
    (fun s : SectionContent =>
      "## " ++ s.heading ++ "\n\n" ++ applyEditsToSection proposedEdits s.heading s.content
        ++ "\n\n") sections]
  by_cases hfb : globalFeedback.length > 0
  · rw [if_pos hfb, if_pos hfb,
      foldl_append_stringConcat (fun feedback => "- " ++ feedback ++ "\n") globalFeedback]
    by_cases href :
        ((sections.map (fun s => s.references.getD [])).flatten).length > 0
    · rw [if_pos href, if_pos href,
        foldl_append_stringConcat
          (fun ref : Reference => "- [" ++ ref.title ++ "](" ++ ref.url ++ ")\n")
          (sections.map (fun s => s.references.getD [])).flatten]
      apply String.ext
      simp [String.data_append, List.append_assoc]
    · rw [if_neg href, if_neg href]
      apply String.ext
      simp [String.data_append, List.append_assoc]
  · rw [if_neg hfb, if_neg hfb]
    by_cases href :
        ((sections.map (fun s => s.references.getD [])).flatten).length > 0
    · rw [if_pos href, if_pos href,
        foldl_append_stringConcat
          (fun ref : Reference => "- [" ++ ref.title ++ "](" ++ ref.url ++ ")\n")
          (sections.map (fun s => s.references.getD [])).flatten]
      apply String.ext
      simp [String.data_append, List.append_assoc]
    · rw [if_neg href, if_neg href]
      apply String.ext
      simp [String.data_append, List.append_assoc]
